import Mathlib

set_option maxRecDepth 8000

/-!
Verification of the go-phash perceptual-hash core.

Shallow embedding of the repository's Go sources:
* `phash.go` — `PHash`, `HammingDistance`, `gray32x32`, `medianImageHash`,
  `hashFromCoeffsImageHash`;
* `rotate.go` — the eight EXIF orientation transforms (generic per-pixel path;
  the RGBA/NRGBA fast paths use the same index mapping per the source comments);
* the resize helper (`Resize`) — its dimension-selection logic;
* the EXIF orientation scanner (`exifOrientationJPEG`, `parseExifOrientation`).

Conventions:
* Go `float64` coefficient/pixel values are modelled as `ℚ` (the claims proved
  here are order-theoretic and hold for any linear order; concrete inputs used
  in counterexamples are small integers, exactly representable in `float64`).
* Go `uint64` hash values are modelled as `ℕ`; the hash accumulator starts at 0
  and is shifted left 64 times, so it always stays below `2 ^ 64` (proved
  below) and `uint64` wrap-around never occurs — no `% 2 ^ 64` is needed.
* Byte buffers are `List ℕ` (each entry a byte value `0..255`; the safety
  theorems below do not depend on the range).  A raw Go slice access is
  modelled with `List.getElem?`; an out-of-range access (which in Go would
  panic) is the `Except.error` outcome, so a result of the form `Except.ok _`
  means the scan finished without any out-of-range access.
-/

namespace GoPhash

/-! ### Bit-string helpers and the hash builder (`phash.go`) -/

/-- Accumulate a list of bits (each `0` or `1`) MSB-first into a natural
number: the Go pattern `h <<= 1; h |= bit` run over the list. -/
def bitsToNat (l : List ℕ) : ℕ := l.foldl (fun h b => 2 * h + b) 0

/-- Row-major list of the 64 threshold bits: `1` when `c[y][x] > med`
(Go: `if c[y][x] > med`), `0` otherwise, rows first. -/
def coeffBits (c : Fin 8 → Fin 8 → ℚ) (med : ℚ) : List ℕ :=
  (List.finRange 8).flatMap fun y =>
    (List.finRange 8).map fun x => if med < c y x then 1 else 0

/-- Translation of `hashFromCoeffsImageHash` (phash.go): nested loops over
`y` then `x`, each step `h <<= 1` then `h |= 1` when `c[y][x] > med`.
The accumulator never reaches `2 ^ 64`, so `ℕ` matches `uint64` exactly. -/
def hashFromCoeffsImageHash (c : Fin 8 → Fin 8 → ℚ) (med : ℚ) : ℕ :=
  (List.finRange 8).foldl
    (fun h y =>
      (List.finRange 8).foldl
        (fun h x => 2 * h + (if med < c y x then 1 else 0)) h)
    0

/-- The 49 coefficients collected by `medianImageHash` (phash.go):
rows `y = 1..7`, within each row columns `x = 1..7`, in loop order. -/
def coeffWindow (c : Fin 8 → Fin 8 → ℚ) : List ℚ :=
  ((List.finRange 8).drop 1).flatMap fun y =>
    ((List.finRange 8).drop 1).map fun x => c y x

/-- Translation of `medianImageHash` (phash.go): collect `c[y][x]` for
`y = 1..7`, `x = 1..7`, sort ascending (`sort.Float64s`), return the element
at index `len(v)/2` (sorting in place leaves the length unchanged). -/
def medianImageHash (c : Fin 8 → Fin 8 → ℚ) : ℚ :=
  let v : List ℚ := coeffWindow c
  (List.insertionSort (· ≤ ·) v).getD (v.length / 2) 0

/-- Number of set bits of a natural number, the model of
`bits.OnesCount64` on values below `2 ^ 64`. -/
def onesCount : ℕ → ℕ
  | 0 => 0
  | n + 1 => (n + 1) % 2 + onesCount ((n + 1) / 2)
decreasing_by exact Nat.div_lt_self (Nat.succ_pos n) one_lt_two

/-- Translation of `HammingDistance` (phash.go):
`bits.OnesCount64(a ^ b)`. -/
def HammingDistance (a b : ℕ) : ℕ := onesCount (a ^^^ b)

/-- Concrete coefficient matrix: the DC cell holds `1`, every other cell `0`.
Its median window is all zeros, so the DC comparison `1 > 0` fires. -/
def dcOnlyCoeffs : Fin 8 → Fin 8 → ℚ :=
  fun y x => if y = 0 ∧ x = 0 then 1 else 0

/-- Concrete coefficient matrix with pairwise distinct entries
`c[y][x] = 8 * y + x`, separating sorted index 24 from sorted index 31. -/
def distinctCoeffs : Fin 8 → Fin 8 → ℚ :=
  fun y x => ((8 * y.val + x.val : ℕ) : ℚ)

/-! ### The image data model and the orientation transforms (`rotate.go`) -/

/-- Model of Go `image.Image`: bounds with minimum corner `(minX, minY)`,
width `Dx`, height `Dy`, and the `At` pixel accessor, over an arbitrary
pixel type `α`.  Only in-bounds coordinates are ever read by the code
modelled here, so `pix` being total is harmless. -/
structure GoImage (α : Type) : Type where
  minX : ℤ
  minY : ℤ
  width : ℕ
  height : ℕ
  pix : ℤ → ℤ → α

/-- Translation of `flipHorizontal` (rotate.go, generic path):
`dst(x, y) = src(Min.X + (w-1-x), Min.Y + y)`, output bounds `(0,0,w,h)`. -/
def flipHorizontal {α : Type} (img : GoImage α) : GoImage α :=
  ⟨0, 0, img.width, img.height, fun x y =>
    img.pix (img.minX + ((img.width : ℤ) - 1 - x)) (img.minY + y)⟩

/-- Translation of `flipVertical` (rotate.go):
`dst(x, y) = src(Min.X + x, Min.Y + (h-1-y))`, output bounds `(0,0,w,h)`. -/
def flipVertical {α : Type} (img : GoImage α) : GoImage α :=
  ⟨0, 0, img.width, img.height, fun x y =>
    img.pix (img.minX + x) (img.minY + ((img.height : ℤ) - 1 - y))⟩

/-- Translation of `rotate180` (rotate.go):
`dst(x, y) = src(Min.X + (w-1-x), Min.Y + (h-1-y))`, bounds `(0,0,w,h)`. -/
def rotate180 {α : Type} (img : GoImage α) : GoImage α :=
  ⟨0, 0, img.width, img.height, fun x y =>
    img.pix (img.minX + ((img.width : ℤ) - 1 - x))
            (img.minY + ((img.height : ℤ) - 1 - y))⟩

/-- Translation of `rotate90` (rotate.go): the source sets
`dst(h-1-y, x) = src(Min.X + x, Min.Y + y)`; solving for the destination
position `(X, Y)` gives `dst(X, Y) = src(Min.X + Y, Min.Y + (h-1-X))`,
output bounds `(0,0,h,w)`. -/
def rotate90 {α : Type} (img : GoImage α) : GoImage α :=
  ⟨0, 0, img.height, img.width, fun x y =>
    img.pix (img.minX + y) (img.minY + ((img.height : ℤ) - 1 - x))⟩

/-- Translation of `rotate270` (rotate.go): the source sets
`dst(y, w-1-x) = src(Min.X + x, Min.Y + y)`; at destination `(X, Y)` this is
`dst(X, Y) = src(Min.X + (w-1-Y), Min.Y + X)`, output bounds `(0,0,h,w)`. -/
def rotate270 {α : Type} (img : GoImage α) : GoImage α :=
  ⟨0, 0, img.height, img.width, fun x y =>
    img.pix (img.minX + ((img.width : ℤ) - 1 - y)) (img.minY + x)⟩

/-- Translation of `transpose` (rotate.go): the source sets
`dst(y, x) = src(Min.X + x, Min.Y + y)`, so `dst(X, Y) = src(Min.X + Y,
Min.Y + X)`, output bounds `(0,0,h,w)`. -/
def transpose {α : Type} (img : GoImage α) : GoImage α :=
  ⟨0, 0, img.height, img.width, fun x y =>
    img.pix (img.minX + y) (img.minY + x)⟩

/-- Translation of `transverse` (rotate.go): the source sets
`dst(h-1-y, w-1-x) = src(Min.X + x, Min.Y + y)`, so
`dst(X, Y) = src(Min.X + (w-1-Y), Min.Y + (h-1-X))`, bounds `(0,0,h,w)`. -/
def transverse {α : Type} (img : GoImage α) : GoImage α :=
  ⟨0, 0, img.height, img.width, fun x y =>
    img.pix (img.minX + ((img.width : ℤ) - 1 - y))
            (img.minY + ((img.height : ℤ) - 1 - x))⟩

/-- Translation of the `switch orientation` dispatch in
`applyEXIFOrientation` (decode source file, part_005): codes 2..8 select the
seven transforms, every other code returns the image unchanged. -/
def orientTransform {α : Type} (orientation : ℕ) (img : GoImage α) : GoImage α :=
  match orientation with
  | 2 => flipHorizontal img
  | 3 => rotate180 img
  | 4 => flipVertical img
  | 5 => transpose img
  | 6 => rotate90 img
  | 7 => transverse img
  | 8 => rotate270 img
  | _ => img

/-- Pixel-identity of two images: same width and height, and equal pixel
values at every in-bounds position (sampled relative to each image's own
minimum corner, which is how Go code reads an `image.Image`). -/
def sameContent {α : Type} (a b : GoImage α) : Prop :=
  a.width = b.width ∧ a.height = b.height ∧
  ∀ x y : ℤ, 0 ≤ x → x < (a.width : ℤ) → 0 ≤ y → y < (a.height : ℤ) →
    a.pix (a.minX + x) (a.minY + y) = b.pix (b.minX + x) (b.minY + y)

/-! ### The hash pipeline (`PHash`, phash.go)

`Grayscale` and `Resize` delegate their pixel work to the external
`golang.org/x/image/draw` collaborator, so the pipeline is embedded
parametrically in those two stages (and in the DCT, whose cosine basis is
irrational and only its consumers matter to the claims); the pipeline
*structure* — which stage feeds which — is taken verbatim from `PHash`.
Pixels of type `ℕ` stand for the 16-bit red sample that `gray32x32` reads
through `At(...).RGBA()`. -/

/-- Translation of `gray32x32` (phash.go):
`out[y][x] = float64(r >> 8)` where `r` is the 16-bit red sample at
`(Min.X + x, Min.Y + y)`; the shift is integer division by 256. -/
def gray32x32 (img : GoImage ℕ) : Fin 32 → Fin 32 → ℚ :=
  fun y x =>
    ((img.pix (img.minX + (x.val : ℤ)) (img.minY + (y.val : ℤ)) / 256 : ℕ) : ℚ)

/-- Translation of `PHash` (phash.go), parametric in the external
collaborator stages: `nil` yields hash 0; otherwise the Go body runs
`Grayscale` first, then `Resize(gray, 32, 32)`, then `gray32x32`, then the
DCT, then the median threshold and the bit builder. -/
def PHash (grayscale : GoImage ℕ → GoImage ℕ)
    (resize : GoImage ℕ → ℕ → ℕ → GoImage ℕ)
    (dct : (Fin 32 → Fin 32 → ℚ) → Fin 8 → Fin 8 → ℚ)
    (img : Option (GoImage ℕ)) : ℕ :=
  match img with
  | none => 0
  | some im =>
      let gray := grayscale im
      let resized := resize gray 32 32
      let pix := gray32x32 resized
      let coeff := dct pix
      let med := medianImageHash coeff
      hashFromCoeffsImageHash coeff med

/-- Modelled from the spec: the pipeline in the order the spec states it —
Pixel Sampler (resize to 32×32) first, then Grayscale Reducer, then the
Spectral Transform, then the Bit Extractor.  Used only to compare against
the order the source actually uses. -/
def PHashSpecOrder (grayscale : GoImage ℕ → GoImage ℕ)
    (resize : GoImage ℕ → ℕ → ℕ → GoImage ℕ)
    (dct : (Fin 32 → Fin 32 → ℚ) → Fin 8 → Fin 8 → ℚ)
    (img : Option (GoImage ℕ)) : ℕ :=
  match img with
  | none => 0
  | some im =>
      let resized := resize im 32 32
      let gray := grayscale resized
      let pix := gray32x32 gray
      let coeff := dct pix
      let med := medianImageHash coeff
      hashFromCoeffsImageHash coeff med

/-- Concrete instance of the grayscale collaborator: luminance 0 for a zero
pixel, 256 otherwise (a legitimate per-pixel luminance map). -/
def grayScale0 : GoImage ℕ → GoImage ℕ :=
  fun im => ⟨im.minX, im.minY, im.width, im.height,
    fun x y => if im.pix x y = 0 then 0 else 256⟩

/-- Concrete instance of the resize collaborator: produces the requested
dimensions at origin `(0,0)` and biases every sample by one. -/
def resize0 : GoImage ℕ → ℕ → ℕ → GoImage ℕ :=
  fun im w h => ⟨0, 0, w, h, fun x y => im.pix x y + 1⟩

/-- Concrete instance of the spectral stage: the top-left 8×8 corner of the
grid (the identity on the low-frequency corner). -/
def dct0 : (Fin 32 → Fin 32 → ℚ) → Fin 8 → Fin 8 → ℚ :=
  fun g u v => g (Fin.castLE (by norm_num) u) (Fin.castLE (by norm_num) v)

/-- Concrete 32×32 test image: a single bright pixel at the origin. -/
def img0 : GoImage ℕ :=
  ⟨0, 0, 32, 32, fun x y => if x = 0 ∧ y = 0 then 1 else 0⟩

/-! ### Dimension selection of `Resize` (resize source file, part_000)

The pixel resampling itself is the external `draw` collaborator; what the
repository owns is the dimension arithmetic and the early-return guards,
modelled here.  `float64` products and quotients of the involved integers
are represented exactly over the rationals; the Go conversion
`uint32(float64expr)` truncates toward zero, which on the nonnegative
values here is `Nat` floor division (exact whenever the `float64`
computation is, as at every input used in the theorems below). -/

/-- Outcome of `Resize`: either the source image returned unchanged, or a
scaled image of the recorded dimensions. -/
inductive ResizeOutcome : Type where
  | source : ResizeOutcome
  | scaled : ℕ → ℕ → ResizeOutcome
deriving DecidableEq

/-- Translation of the dimension logic of `Resize` (part_000): the
both-zero / exact-match early return, the aspect-ratio fill-in of a zero
target via `uint32(float64(known) * other / source)` (truncation = floor),
the degenerate-output guard, and otherwise the scaled dimensions that both
the upscale and downscale paths allocate. -/
def resizeDims (sw sh dstW dstH : ℕ) : ResizeOutcome :=
  if (dstW = 0 ∧ dstH = 0) ∨ (dstW = sw ∧ dstH = sh) then .source
  else
    let dstW := if dstW = 0 then dstH * sw / sh else dstW
    let dstH := if dstH = 0 then dstW * sh / sw else dstH
    if dstW = 0 ∨ dstH = 0 then .source
    else .scaled dstW dstH

/-- Modelled from the spec: the same dimension logic but with the missing
dimension computed by round-to-nearest (`round(known * other / source)`,
half away from zero on these nonnegative values), as the spec words state.
Used only to compare against the truncating source. -/
def resizeDimsSpecRound (sw sh dstW dstH : ℕ) : ResizeOutcome :=
  if (dstW = 0 ∧ dstH = 0) ∨ (dstW = sw ∧ dstH = sh) then .source
  else
    let dstW := if dstW = 0 then (2 * (dstH * sw) + sh) / (2 * sh) else dstW
    let dstH := if dstH = 0 then (2 * (dstW * sh) + sw) / (2 * sw) else dstH
    if dstW = 0 ∨ dstH = 0 then .source
    else .scaled dstW dstH

/-! ### The EXIF orientation scanner (decode source file, part_005)

A raw slice access `data[j]` is modelled by `List.getElem?` with the `none`
outcome propagated as `Except.error ()` — the event that in Go would be an
out-of-range panic.  The source's explicit bounds checks are translated
verbatim, so proving every result is `Except.ok _` proves the scan never
makes an out-of-range access.  `Except.ok none` is Go's `(0, false)`
("orientation not found"); `Except.ok (some o)` is `(o, true)`. -/

/-- Byte order selected by the TIFF header: `II` (little) or `MM` (big). -/
inductive ByteOrder : Type where
  | le : ByteOrder
  | be : ByteOrder

/-- The 6-byte `Exif` signature (`"Exif\x00\x00"`) tested with
`bytes.HasPrefix` in `exifOrientationJPEG`. -/
def exifHeader : List ℕ := [0x45, 0x78, 0x69, 0x66, 0x00, 0x00]

/-- A 2-byte read `order.Uint16(t[i:i+2])`, erroring (as the Go slice
expression would panic) when either byte is out of range. -/
def readU16 (ord : ByteOrder) (t : List ℕ) (i : ℕ) : Except Unit ℕ :=
  match t[i]?, t[i + 1]? with
  | some b0, some b1 =>
      .ok (match ord with
        | .be => b0 * 256 + b1
        | .le => b1 * 256 + b0)
  | _, _ => .error ()

/-- A 4-byte read `order.Uint32(t[i:i+4])`, erroring when out of range. -/
def readU32 (ord : ByteOrder) (t : List ℕ) (i : ℕ) : Except Unit ℕ :=
  match t[i]?, t[i + 1]?, t[i + 2]?, t[i + 3]? with
  | some b0, some b1, some b2, some b3 =>
      .ok (match ord with
        | .be => ((b0 * 256 + b1) * 256 + b2) * 256 + b3
        | .le => ((b3 * 256 + b2) * 256 + b1) * 256 + b0)
  | _, _, _, _ => .error ()

/-- Translation of the entry loop of `parseExifOrientation` (part_005):
entry `n` sits at `entriesBase + n*12`; a truncated entry breaks the loop
(not found); tag `0x0112` must have type SHORT (3) and count 1, and its
2-byte value is accepted only in `1..8`.  Any other tag advances to the
next entry. -/
def scanIFDEntries (ord : ByteOrder) (tiff : List ℕ) (entriesBase : ℕ)
    (count : ℕ) (n : ℕ) : Except Unit (Option ℕ) :=
  if n < count then
    if entriesBase + n * 12 + 12 > tiff.length then .ok none
    else
      match readU16 ord tiff (entriesBase + n * 12) with
      | .error e => .error e
      | .ok tag =>
        if tag ≠ 0x0112 then scanIFDEntries ord tiff entriesBase count (n + 1)
        else
          match readU16 ord tiff (entriesBase + n * 12 + 2),
                readU32 ord tiff (entriesBase + n * 12 + 4) with
          | .ok typ, .ok cnt =>
            if typ ≠ 3 ∨ cnt ≠ 1 then .ok none
            else
              match readU16 ord tiff (entriesBase + n * 12 + 8) with
              | .ok value =>
                  if 1 ≤ value ∧ value ≤ 8 then .ok (some value) else .ok none
              | .error e => .error e
          | .error e, _ => .error e
          | _, .error e => .error e
  else .ok none
termination_by count - n

/-- Body of `parseExifOrientation` (part_005) after the byte order is
fixed: TIFF magic `0x002A` at offset 2, IFD offset at 4, bounded entry
count at the IFD offset (corruption guard `> 256`), then the entry loop. -/
def parseExifWithOrder (ord : ByteOrder) (tiff : List ℕ) : Except Unit (Option ℕ) :=
  match readU16 ord tiff 2 with
  | .error e => .error e
  | .ok magic =>
    if magic ≠ 0x002A then .ok none
    else
      match readU32 ord tiff 4 with
      | .error e => .error e
      | .ok ifdOffset =>
        if ifdOffset + 2 > tiff.length then .ok none
        else
          match readU16 ord tiff ifdOffset with
          | .error e => .error e
          | .ok entryCount =>
            if entryCount > 256 then .ok none
            else scanIFDEntries ord tiff (ifdOffset + 2) entryCount 0

/-- Translation of `parseExifOrientation` (part_005): an 8-byte minimum,
the `II` / `MM` byte-order mark (anything else: not found), then the
TIFF walk. -/
def parseExifOrientation (tiff : List ℕ) : Except Unit (Option ℕ) :=
  if tiff.length < 8 then .ok none
  else
    match tiff[0]?, tiff[1]? with
    | some b0, some b1 =>
      if b0 = 0x49 ∧ b1 = 0x49 then parseExifWithOrder .le tiff
      else if b0 = 0x4D ∧ b1 = 0x4D then parseExifWithOrder .be tiff
      else .ok none
    | _, _ => .error ()

/-- The Go slice `data[i+2 : segEnd]` taken inside the APP1 branch, where
in the source `i` has already advanced past the two marker bytes: with this
file's convention (`i` still at the marker prefix) that is
`data[i+4 : i+2+segLen]`. -/
def exifSegment (data : List ℕ) (i segLen : ℕ) : List ℕ :=
  (data.take (i + 2 + segLen)).drop (i + 2 + 2)

/-- One iteration of the marker-scan loop of `exifOrientationJPEG`
(part_005), factored out of the recursion: `finish r` models `return` /
`break` with final answer `r`, `fail` an out-of-range access, and
`continueAt j` the next loop iteration with `i = j`. -/
inductive ScanStep : Type where
  | finish : Option ℕ → ScanStep
  | fail : ScanStep
  | continueAt : ℕ → ScanStep

/-- Translation of the body of the marker-scan loop (part_005), with `i` at
the candidate `0xFF` prefix: skip a non-`0xFF` byte; stop at EOI/SOS; skip
standalone and restart markers; read the big-endian segment length
(`segLen < 2` or overrun: stop); inside an APP1 segment of length `≥ 8`
check the Exif signature and run the TIFF parse, falling through to the
next segment when it finds nothing. -/
def scanStep (data : List ℕ) (i : ℕ) : ScanStep :=
  match data[i]? with
  | none => .fail
  | some bi =>
    if bi ≠ 0xFF then .continueAt (i + 1)
    else if i + 1 ≥ data.length then .finish none
    else
      match data[i + 1]? with
      | none => .fail
      | some marker =>
        if marker = 0xD9 ∨ marker = 0xDA then .finish none
        else if marker = 0x01 ∨ (0xD0 ≤ marker ∧ marker ≤ 0xD7) then .continueAt (i + 2)
        else if i + 2 + 2 > data.length then .finish none
        else
          match data[i + 2]?, data[i + 3]? with
          | some l0, some l1 =>
            if l0 * 256 + l1 < 2 then .finish none
            else if i + 2 + (l0 * 256 + l1) > data.length then .finish none
            else if marker = 0xE1 ∧ 8 ≤ l0 * 256 + l1 then
              if 6 ≤ (exifSegment data i (l0 * 256 + l1)).length ∧
                  (exifSegment data i (l0 * 256 + l1)).take 6 = exifHeader then
                match parseExifOrientation ((exifSegment data i (l0 * 256 + l1)).drop 6) with
                | .error _ => .fail
                | .ok (some o) => .finish (some o)
                | .ok none => .continueAt (i + 2 + (l0 * 256 + l1))
              else .continueAt (i + 2 + (l0 * 256 + l1))
            else .continueAt (i + 2 + (l0 * 256 + l1))
          | _, _ => .fail

/-- The marker-scan loop of `exifOrientationJPEG` (part_005):
`for i := 2; i+4 <= len(data);` iterating `scanStep`; falling out of the
loop is "not found".  Termination: every `continueAt` strictly increases
`i` (by 1, 2, or `2 + segLen` with `segLen ≥ 2`). -/
def scanMarkers (data : List ℕ) (i : ℕ) : Except Unit (Option ℕ) :=
  if i + 4 ≤ data.length then
    match hstep : scanStep data i with
    | .finish r => .ok r
    | .fail => .error ()
    | .continueAt j => scanMarkers data j
  else .ok none
termination_by data.length - i
decreasing_by
  unfold scanStep at hstep
  repeat' split at hstep
  all_goals (first | omega | (cases hstep <;> omega))

/-- Translation of `exifOrientationJPEG` (part_005): a buffer shorter than
4 bytes or without the `FF D8` start-of-image marker is "not found";
otherwise the marker scan starts at offset 2. -/
def exifOrientationJPEG (data : List ℕ) : Except Unit (Option ℕ) :=
  if data.length < 4 then .ok none
  else
    match data[0]?, data[1]? with
    | some b0, some b1 =>
      if b0 = 0xFF ∧ b1 = 0xD8 then scanMarkers data 2 else .ok none
    | _, _ => .error ()

/-! ### Helper lemmas -/

/-- Folding the shift-and-or step from accumulator `a` prepends `a` above
`l.length` fresh bits. -/
theorem bitsToNat_foldl (l : List ℕ) (a : ℕ) :
    l.foldl (fun h b => 2 * h + b) a = a * 2 ^ l.length + bitsToNat l := by
  induction l generalizing a with
  | nil => simp [bitsToNat]
  | cons b l ih =>
    show l.foldl _ (2 * a + b) = a * 2 ^ (b :: l).length + bitsToNat (b :: l)
    have hb : bitsToNat (b :: l) = b * 2 ^ l.length + bitsToNat l := by
      show l.foldl _ (2 * 0 + b) = _
      rw [ih]; ring_nf
    rw [ih, hb, List.length_cons]; ring

/-- A list of bits each at most 1 accumulates to less than
`2 ^ l.length`. -/
theorem bitsToNat_lt (l : List ℕ) (hl : ∀ b ∈ l, b ≤ 1) :
    bitsToNat l < 2 ^ l.length := by
  induction l with
  | nil => simp [bitsToNat]
  | cons b l ih =>
    have hb : bitsToNat (b :: l) = b * 2 ^ l.length + bitsToNat l := by
      show l.foldl _ (2 * 0 + b) = _
      rw [bitsToNat_foldl]; ring_nf
    have h1 : b ≤ 1 := hl b (List.mem_cons_self b l)
    have h2 : bitsToNat l < 2 ^ l.length := ih fun x hx => hl x (List.mem_cons_of_mem _ hx)
    rw [hb, List.length_cons, pow_succ]
    nlinarith

/-- Every entry of the threshold-bit list is 0 or 1. -/
theorem coeffBits_le_one (c : Fin 8 → Fin 8 → ℚ) (med : ℚ) :
    ∀ b ∈ coeffBits c med, b ≤ 1 := by
  intro b hb
  simp only [coeffBits, List.mem_flatMap, List.mem_map] at hb
  obtain ⟨y, -, x, -, rfl⟩ := hb
  split <;> omega

/-- A number below `2 ^ k` has at most `k` set bits. -/
theorem onesCount_le (k : ℕ) : ∀ n, n < 2 ^ k → onesCount n ≤ k := by
  induction k with
  | zero =>
    intro n hn
    interval_cases n
    simp [onesCount]
  | succ k ih =>
    intro n hn
    match n with
    | 0 => simp [onesCount]
    | m + 1 =>
      rw [onesCount]
      have h2 : (m + 1) / 2 < 2 ^ k := by
        rw [pow_succ] at hn
        omega
      have := ih ((m + 1) / 2) h2
      omega

/-- A 2-byte read inside the buffer succeeds. -/
theorem readU16_ok (ord : ByteOrder) (t : List ℕ) (i : ℕ) (h : i + 2 ≤ t.length) :
    ∃ v, readU16 ord t i = .ok v := by
  rw [readU16, List.getElem?_eq_getElem (by omega), List.getElem?_eq_getElem (by omega)]
  exact ⟨_, rfl⟩

/-- A 4-byte read inside the buffer succeeds. -/
theorem readU32_ok (ord : ByteOrder) (t : List ℕ) (i : ℕ) (h : i + 4 ≤ t.length) :
    ∃ v, readU32 ord t i = .ok v := by
  rw [readU32, List.getElem?_eq_getElem (by omega), List.getElem?_eq_getElem (by omega),
    List.getElem?_eq_getElem (by omega), List.getElem?_eq_getElem (by omega)]
  exact ⟨_, rfl⟩

/-- The IFD entry loop never makes an out-of-range access: its per-entry
bounds check guards every read of the 12-byte entry. -/
theorem scanIFDEntries_ok (ord : ByteOrder) (tiff : List ℕ) (entriesBase : ℕ)
    (count : ℕ) : ∀ n, ∃ r, scanIFDEntries ord tiff entriesBase count n = .ok r := by
  intro n
  have key : ∀ m n, count - n ≤ m →
      ∃ r, scanIFDEntries ord tiff entriesBase count n = .ok r := by
    intro m
    induction m with
    | zero =>
      intro n hn
      rw [scanIFDEntries]
      have : ¬ n < count := by omega
      simp [this]
    | succ m ih =>
      intro n hn
      rw [scanIFDEntries]
      by_cases hcnt : n < count
      · simp only [if_pos hcnt]
        by_cases hlen : entriesBase + n * 12 + 12 > tiff.length
        · simp [hlen]
        · simp only [if_neg hlen]
          obtain ⟨tag, htag⟩ := readU16_ok ord tiff (entriesBase + n * 12) (by omega)
          rw [htag]
          by_cases htagv : tag ≠ 0x0112
          · simp only [if_pos htagv]
            exact ih (n + 1) (by omega)
          · simp only [if_neg htagv]
            obtain ⟨typ, htyp⟩ := readU16_ok ord tiff (entriesBase + n * 12 + 2) (by omega)
            obtain ⟨cnt, hcnt2⟩ := readU32_ok ord tiff (entriesBase + n * 12 + 4) (by omega)
            rw [htyp, hcnt2]
            by_cases hty : typ ≠ 3 ∨ cnt ≠ 1
            · simp [hty]
            · simp only [if_neg hty]
              obtain ⟨v, hv⟩ := readU16_ok ord tiff (entriesBase + n * 12 + 8) (by omega)
              rw [hv]
              by_cases hrange : 1 ≤ v ∧ v ≤ 8
              · simp [hrange]
              · simp [hrange]
      · simp [hcnt]
  exact key (count - n) n le_rfl

/-- The TIFF walk never makes an out-of-range access once the 8-byte
header is present. -/
theorem parseExifWithOrder_ok (ord : ByteOrder) (tiff : List ℕ)
    (h : 8 ≤ tiff.length) : ∃ r, parseExifWithOrder ord tiff = .ok r := by
  rw [parseExifWithOrder]
  obtain ⟨magic, hmagic⟩ := readU16_ok ord tiff 2 (by omega)
  rw [hmagic]
  by_cases hm : magic ≠ 0x002A
  · simp [hm]
  · simp only [if_neg hm]
    obtain ⟨ifd, hifd⟩ := readU32_ok ord tiff 4 (by omega)
    rw [hifd]
    by_cases hoff : ifd + 2 > tiff.length
    · simp [hoff]
    · simp only [if_neg hoff]
      obtain ⟨cnt, hcnt⟩ := readU16_ok ord tiff ifd (by omega)
      rw [hcnt]
      by_cases hbig : cnt > 256
      · simp [hbig]
      · simp only [if_neg hbig]
        exact scanIFDEntries_ok ord tiff (ifd + 2) cnt 0

/-- The TIFF parse is total and never errors: any malformed payload is
"not found". -/
theorem parseExifOrientation_ok (tiff : List ℕ) :
    ∃ r, parseExifOrientation tiff = .ok r := by
  rw [parseExifOrientation]
  by_cases hlen : tiff.length < 8
  · simp [hlen]
  · simp only [if_neg hlen]
    have h0 : tiff[0]? = some tiff[0] := List.getElem?_eq_getElem (by omega)
    have h1 : tiff[1]? = some tiff[1] := List.getElem?_eq_getElem (by omega)
    rw [h0, h1]
    by_cases hle : tiff[0] = 0x49 ∧ tiff[1] = 0x49
    · simp only [if_pos hle]
      exact parseExifWithOrder_ok .le tiff (by omega)
    · simp only [if_neg hle]
      by_cases hbe : tiff[0] = 0x4D ∧ tiff[1] = 0x4D
      · simp only [if_pos hbe]
        exact parseExifWithOrder_ok .be tiff (by omega)
      · simp [hbe]

/-- Restatement of the previous lemma as an inequation. -/
theorem parseExifOrientation_ne_error (tiff : List ℕ) (e : Unit) :
    parseExifOrientation tiff ≠ .error e := by
  obtain ⟨r, hr⟩ := parseExifOrientation_ok tiff
  rw [hr]
  simp

/-- While the loop guard holds, an iteration of the marker scan never makes
an out-of-range access: every read is preceded by the source's bounds
check. -/
theorem scanStep_not_fail (data : List ℕ) (i : ℕ) (h : i + 4 ≤ data.length) :
    scanStep data i ≠ .fail := by
  unfold scanStep
  repeat' split
  all_goals (intro hcontr; injection hcontr)
  all_goals first
    | (rename_i heq; rw [List.getElem?_eq_getElem (by omega)] at heq; cases heq)
    | (rename_i heq; exact parseExifOrientation_ne_error _ _ heq)
    | (rename_i hno;
       exact hno _ _ (List.getElem?_eq_getElem (by omega)) (List.getElem?_eq_getElem (by omega)))

/-- Every `continueAt` outcome strictly advances the scan position. -/
theorem scanStep_progress (data : List ℕ) (i j : ℕ)
    (hs : scanStep data i = .continueAt j) : i < j := by
  unfold scanStep at hs
  repeat' split at hs
  all_goals (first | omega | (cases hs <;> omega))

/-- The marker scan never errors on any input. -/
theorem scanMarkers_ok (data : List ℕ) (i : ℕ) :
    ∃ r, scanMarkers data i = .ok r := by
  have key : ∀ m i, data.length - i ≤ m → ∃ r, scanMarkers data i = .ok r := by
    intro m
    induction m with
    | zero =>
      intro i hi
      rw [scanMarkers]
      have hguard : ¬ (i + 4 ≤ data.length) := by omega
      simp [hguard]
    | succ m ih =>
      intro i hi
      rw [scanMarkers]
      by_cases hguard : i + 4 ≤ data.length
      · rw [if_pos hguard]
        split
        · exact ⟨_, rfl⟩
        · rename_i heq
          exact absurd heq (scanStep_not_fail data i hguard)
        · rename_i j heq
          have hj : i < j := scanStep_progress data i j heq
          exact ih j (by omega)
      · rw [if_neg hguard]
        exact ⟨none, rfl⟩
  exact key (data.length - i) i le_rfl

/-! ### Claim theorems -/

/-- Claim C1, counterexample: the claim says the bit at (row 0, col 0) —
the most significant bit — is forced to 0 unconditionally after the hash is
built.  `hashFromCoeffsImageHash` has no such forcing step: for the matrix
whose DC coefficient is 1 and whose other coefficients are 0, the median is
0, the DC comparison `1 > 0` fires, and the produced hash is `2 ^ 63` with
bit 63 set. -/
theorem claim1_dc_bit_cex :
    hashFromCoeffsImageHash dcOnlyCoeffs (medianImageHash dcOnlyCoeffs) = 2 ^ 63 ∧
    Nat.testBit (hashFromCoeffsImageHash dcOnlyCoeffs (medianImageHash dcOnlyCoeffs)) 63
      = true := by
  decide

/-- Claim C1, amended: the bit at (row 0, col 0) of the hash is not forced;
it is set by the same rule as every other bit — the hash has its most
significant bit (bit 63, value `2 ^ 63`) set exactly when the DC
coefficient exceeds the median — and the hash always fits in 64 bits, so
`uint64` arithmetic never wraps. -/
theorem claim1_dc_bit_amended (c : Fin 8 → Fin 8 → ℚ) (med : ℚ) :
    (2 ^ 63 ≤ hashFromCoeffsImageHash c med ↔ med < c 0 0) ∧
    hashFromCoeffsImageHash c med < 2 ^ 64 := by
  have hb : hashFromCoeffsImageHash c med = bitsToNat (coeffBits c med) := rfl
  obtain ⟨t, ht, htl⟩ :
      ∃ t, coeffBits c med = (if med < c 0 0 then 1 else 0) :: t ∧ t.length = 63 :=
    ⟨_, rfl, rfl⟩
  have hcons : bitsToNat ((if med < c 0 0 then 1 else 0) :: t)
      = (if med < c 0 0 then 1 else 0) * 2 ^ t.length + bitsToNat t := by
    show t.foldl _ (2 * 0 + _) = _
    rw [bitsToNat_foldl]; ring_nf
  have htle : ∀ b ∈ t, b ≤ 1 := by
    intro b hbmem
    exact coeffBits_le_one c med b (ht ▸ List.mem_cons_of_mem _ hbmem)
  have htlt : bitsToNat t < 2 ^ 63 := htl ▸ bitsToNat_lt t htle
  rw [hb, ht, hcons, htl]
  refine ⟨⟨fun hle => ?_, fun hlt => ?_⟩, ?_⟩
  · by_contra hnot
    rw [if_neg hnot] at hle
    omega
  · rw [if_pos hlt]
    omega
  · split <;> omega

/-- Claim C2, counterexample: the claim calls the window "63 coefficients"
and takes sorted index `floor(63/2) = 31`; the code's window at
rows ≥ 1 and columns ≥ 1 has 49 elements and the code takes index
`49/2 = 24`.  On the matrix `c[y][x] = 8y + x` those indices hold 36
and 44. -/
theorem claim2_median_cex :
    medianImageHash distinctCoeffs = 36 ∧
    (List.insertionSort (· ≤ ·) (coeffWindow distinctCoeffs)).getD 31 0 = 44 ∧
    medianImageHash distinctCoeffs ≠
      (List.insertionSort (· ≤ ·) (coeffWindow distinctCoeffs)).getD 31 0 := by
  decide

/-- Claim C2, amended: the threshold is the median of the 49 coefficients
at positions with row ≥ 1 and col ≥ 1 (the first row and first column are
excluded entirely), obtained by sorting ascending and taking index
`floor(49/2) = 24`. -/
theorem claim2_median_amended (c : Fin 8 → Fin 8 → ℚ) :
    (coeffWindow c).length = 49 ∧
    medianImageHash c = (List.insertionSort (· ≤ ·) (coeffWindow c)).getD 24 0 := by
  constructor
  · rfl
  · show (List.insertionSort (· ≤ ·) (coeffWindow c)).getD ((coeffWindow c).length / 2) 0 = _
    have hlen : (coeffWindow c).length = 49 := rfl
    rw [hlen]

/-- Claim C3, counterexample: the claim orders the pipeline Pixel Sampler
first, then Grayscale Reducer; the source runs `Grayscale` first and then
`Resize`.  The two orders already disagree on the concrete collaborator
instances `grayScale0` / `resize0` / `dct0` at the image `img0`: the code
order hashes to `2 ^ 63`, the spec order to 0. -/
theorem claim3_pipeline_order_cex :
    PHash grayScale0 resize0 dct0 (some img0) = 2 ^ 63 ∧
    PHashSpecOrder grayScale0 resize0 dct0 (some img0) = 0 ∧
    PHash grayScale0 resize0 dct0 (some img0) ≠
      PHashSpecOrder grayScale0 resize0 dct0 (some img0) := by
  decide

/-- Claim C3, amended: for every image, `PHash` equals the staged
composition applied in the order Grayscale Reducer first, then Pixel
Sampler (resize to the fixed 32×32 target), then the 32×32 sampling and
Spectral Transform, then the median threshold and Bit Extractor. -/
theorem claim3_pipeline_order_amended (grayscale : GoImage ℕ → GoImage ℕ)
    (resize : GoImage ℕ → ℕ → ℕ → GoImage ℕ)
    (dct : (Fin 32 → Fin 32 → ℚ) → Fin 8 → Fin 8 → ℚ) (im : GoImage ℕ) :
    PHash grayscale resize dct (some im) =
      hashFromCoeffsImageHash (dct (gray32x32 (resize (grayscale im) 32 32)))
        (medianImageHash (dct (gray32x32 (resize (grayscale im) 32 32)))) := rfl

/-- Claim C4: on every byte sequence the Orientation Detector terminates
with an answer (`Except.ok`): it never makes an out-of-range access (the
`Except.error` outcome) — every structural inconsistency ends the scan with
`Except.ok none`, "not found", rather than an error. -/
theorem claim4_detector_never_errors (data : List ℕ) :
    ∃ r, exifOrientationJPEG data = .ok r := by
  rw [exifOrientationJPEG]
  by_cases hlen : data.length < 4
  · simp [hlen]
  · simp only [if_neg hlen]
    have h0 : data[0]? = some data[0] := List.getElem?_eq_getElem (by omega)
    have h1 : data[1]? = some data[1] := List.getElem?_eq_getElem (by omega)
    rw [h0, h1]
    by_cases hsoi : data[0] = 0xFF ∧ data[1] = 0xD8
    · simp only [if_pos hsoi]
      exact scanMarkers_ok data 2
    · simp [hsoi]

/-- Claim C5, counterexample: the claim says the missing dimension is
computed by round-to-nearest; the source converts the `float64` quotient
with `uint32(...)`, which truncates.  For a 3×2 source and target
`(0, 1)` the quotient is 1.5 (exact in `float64`): the code produces
width 1, the claimed rounding would produce width 2. -/
theorem claim5_resize_round_cex :
    resizeDims 3 2 0 1 = ResizeOutcome.scaled 1 1 ∧
    resizeDimsSpecRound 3 2 0 1 = ResizeOutcome.scaled 2 1 ∧
    resizeDims 3 2 0 1 ≠ resizeDimsSpecRound 3 2 0 1 := by
  decide

/-- Claim C5, amended: for a source with positive dimensions and exactly
one zero target dimension, `Resize` fills the missing dimension with the
truncated quotient `known * source_other / source_known` (floor, not
round-to-nearest), and returns the source unchanged when that computation
yields 0. -/
theorem claim5_resize_aspect_amended (sw sh w h : ℕ) (hsw : 0 < sw) (hsh : 0 < sh) :
    (0 < h → resizeDims sw sh 0 h =
      (if h * sw / sh = 0 then ResizeOutcome.source
       else ResizeOutcome.scaled (h * sw / sh) h)) ∧
    (0 < w → resizeDims sw sh w 0 =
      (if w * sh / sw = 0 then ResizeOutcome.source
       else ResizeOutcome.scaled w (w * sh / sw))) := by
  constructor
  · intro hh
    rw [resizeDims, if_neg (by omega)]
    simp only [eq_self_iff_true, if_true, ite_true, if_neg (by omega : ¬ h = 0)]
    by_cases hz : h * sw / sh = 0
    · simp [hz]
    · rw [if_neg (show ¬ (h * sw / sh = 0 ∨ h = 0) by omega), if_neg hz]
  · intro hw
    rw [resizeDims, if_neg (by omega)]
    simp only [eq_self_iff_true, if_true, ite_true, if_neg (by omega : ¬ w = 0)]
    by_cases hz : w * sh / sw = 0
    · simp [hz]
    · rw [if_neg (show ¬ (w = 0 ∨ w * sh / sw = 0) by omega), if_neg hz]

/-- Claim C5, witness: the amended statement applied at the concrete
source 3×2 with targets `(0, 4)` and `(5, 0)`. -/
theorem claim5_resize_aspect_witness :
    0 < 3 ∧ 0 < 2 ∧
    ((0 < 4 → resizeDims 3 2 0 4 =
      (if 4 * 3 / 2 = 0 then ResizeOutcome.source
       else ResizeOutcome.scaled (4 * 3 / 2) 4)) ∧
     (0 < 5 → resizeDims 3 2 5 0 =
      (if 5 * 2 / 3 = 0 then ResizeOutcome.source
       else ResizeOutcome.scaled 5 (5 * 2 / 3)))) :=
  ⟨by decide, by decide, claim5_resize_aspect_amended 3 2 5 4 (by decide) (by decide)⟩

/-- Claim C6: the distance is the Hamming weight of the bitwise XOR; it is
0 on equal arguments, symmetric, and bounded by 64 on 64-bit inputs. -/
theorem claim6_hamming_distance (a b : ℕ) (ha : a < 2 ^ 64) (hb : b < 2 ^ 64) :
    HammingDistance a b = onesCount (a ^^^ b) ∧
    HammingDistance a a = 0 ∧
    HammingDistance a b = HammingDistance b a ∧
    HammingDistance a b ≤ 64 := by
  refine ⟨rfl, ?_, ?_, ?_⟩
  · simp [HammingDistance, Nat.xor_self, onesCount]
  · simp [HammingDistance, Nat.xor_comm]
  · exact onesCount_le 64 _ (Nat.xor_lt_two_pow ha hb)

/-- Claim C6, witness: the distance properties applied at 5 and 9. -/
theorem claim6_hamming_distance_witness :
    (5 : ℕ) < 2 ^ 64 ∧ (9 : ℕ) < 2 ^ 64 ∧
    (HammingDistance 5 9 = onesCount (5 ^^^ 9) ∧
     HammingDistance 5 5 = 0 ∧
     HammingDistance 5 9 = HammingDistance 9 5 ∧
     HammingDistance 5 9 ≤ 64) :=
  ⟨by norm_num, by norm_num, claim6_hamming_distance 5 9 (by norm_num) (by norm_num)⟩

/-- Claim C7: rotating 180° twice returns an image pixel-identical to the
original, and rotating 90° clockwise (code 6) followed by 270° clockwise
(code 8) also returns an image pixel-identical to the original. -/
theorem claim7_rotation_roundtrip {α : Type} (img : GoImage α) :
    sameContent (rotate180 (rotate180 img)) img ∧
    sameContent (rotate270 (rotate90 img)) img := by
  refine ⟨⟨rfl, rfl, ?_⟩, ⟨rfl, rfl, ?_⟩⟩ <;>
    intro x y hx0 hxw hy0 hyh <;>
    simp only [rotate180, rotate90, rotate270] <;>
    ring_nf

/-- Claim C8: a nil image at the hash entry point is not an error —
`PHash` returns the all-zero 64-bit hash, whatever the collaborator
stages are. -/
theorem claim8_nil_hash_zero (grayscale : GoImage ℕ → GoImage ℕ)
    (resize : GoImage ℕ → ℕ → ℕ → GoImage ℕ)
    (dct : (Fin 32 → Fin 32 → ℚ) → Fin 8 → Fin 8 → ℚ) :
    PHash grayscale resize dct none = 0 := rfl

/-- Claim C9: any input shorter than 4 bytes is "not found", even when it
begins with (or is exactly) the 2-byte start-of-image marker `FF D8`. -/
theorem claim9_short_input (data : List ℕ) (h : data.length < 4) :
    exifOrientationJPEG data = .ok none := by
  rw [exifOrientationJPEG]
  simp [h]

/-- Claim C9, witness: the bare 2-byte start-of-image marker `FF D8` is
shorter than 4 bytes and yields "not found". -/
theorem claim9_short_input_witness :
    ([0xFF, 0xD8] : List ℕ).length < 4 ∧
    exifOrientationJPEG [0xFF, 0xD8] = .ok none :=
  ⟨by decide, claim9_short_input [0xFF, 0xD8] (by decide)⟩

/-- Claim C10: every correcting transform (orientation codes 2 through 8)
allocates its output at origin (0,0): the source image's origin offset is
normalized away regardless of its value. -/
theorem claim10_origin_normalized {α : Type} (code : ℕ) (img : GoImage α)
    (h2 : 2 ≤ code) (h8 : code ≤ 8) :
    (orientTransform code img).minX = 0 ∧ (orientTransform code img).minY = 0 := by
  interval_cases code <;>
    simp [orientTransform, flipHorizontal, flipVertical, rotate180, rotate90,
      rotate270, transpose, transverse]

/-- Claim C10, witness: orientation code 6 applied to a concrete image
whose bounds start at (3, -2) yields bounds starting at (0, 0). -/
theorem claim10_origin_normalized_witness :
    2 ≤ 6 ∧ (6 : ℕ) ≤ 8 ∧
    ((orientTransform 6 (⟨3, -2, 4, 5, fun _ _ => 0⟩ : GoImage ℕ)).minX = 0 ∧
     (orientTransform 6 (⟨3, -2, 4, 5, fun _ _ => 0⟩ : GoImage ℕ)).minY = 0) :=
  ⟨by decide, by decide,
    claim10_origin_normalized 6 (⟨3, -2, 4, 5, fun _ _ => 0⟩ : GoImage ℕ)
      (by decide) (by decide)⟩

end GoPhash
